import Mathlib

/-!
Shallow embedding of the data-access and bulk-load layer of the employee
management system (`src/main.py`).

The program keeps an `employees` table (SQLite via SQLAlchemy) with columns
`id (integer primary key, autoincrement), name, position, email (unique),
salary (float), department`, and exposes:

* `load_employees`  — `session.query(Employee).all()`;
* `add_employee`    — insert a new row with a store-generated id;
* `update_employee` — fetch by primary key, overwrite the five business
  fields if found, silently no-op otherwise;
* `delete_employee` — fetch by primary key, delete if found, no-op otherwise;
* `load_csv_to_db`  — if `employees.csv` exists and has the five required
  columns, drop the table, recreate it, and bulk-insert every CSV row
  (`df.to_sql('employees', engine, if_exists='append')`); any failure during
  that insert is caught and logged, leaving the freshly recreated (empty)
  table in place.

The table is modelled as a list of records.  SQLAlchemy's
`Column(Integer, primary_key=True, autoincrement=True)` emits, on SQLite,
an integer primary key WITHOUT the `AUTOINCREMENT` keyword (that would
require `sqlite_autoincrement=True`), so a new row's id is
`max(rowid) + 1` over the rows currently in the table — ids of deleted
rows can be reassigned; there is no persistent counter.  The
`unique=True` constraint on `email` makes a violating insert or update
fail (`ConstraintViolation`), leaving the table unchanged (the session is
closed without the commit having succeeded).  SQLite uses flexible typing
with type affinity on the `FLOAT` column `salary`: a stored value that is
a well-formed numeric literal becomes a real, any other text is stored
as text, and no operation validates salaries.
-/

namespace EmployeeMS

/-- A value stored in the `salary` column.  The column is declared `FLOAT`
(`REAL` affinity), but SQLite's flexible typing stores non-numeric text
as-is. -/
inductive SqlValue where
  | real (q : Rat)
  | text (s : String)
deriving DecidableEq, Repr

/-- One row of the `employees` table (class `Employee`, src/main.py lines
20-27): integer primary key plus the five business fields. -/
structure Employee where
  id : Nat
  name : String
  position : String
  email : String
  salary : SqlValue
  department : String
deriving DecidableEq, Repr

/-- The state of the `employees` table: its rows, in insertion order, the
order SQLite serves them back. -/
structure DB where
  rows : List Employee
deriving DecidableEq, Repr

/-- The freshly created, empty table (`Base.metadata.create_all(engine)`). -/
def initDB : DB := { rows := [] }

/-- The largest id currently in the table (0 when empty).  The table's
integer primary key carries no `AUTOINCREMENT` keyword, so SQLite assigns
`maxId + 1` to the next inserted row. -/
def maxId (rows : List Employee) : Nat :=
  (rows.map (fun e => e.id)).foldl max 0

/-- Errors surfaced by the store: the `unique=True` constraint on `email`
(line 25) raised on commit. -/
inductive DbError where
  | constraintViolation
deriving DecidableEq, Repr

/-- Model of `load_employees` (lines 91-95): `session.query(Employee).all()`. -/
def load_employees (db : DB) : List Employee := db.rows

/-- Model of `add_employee` (lines 97-102): build a new `Employee` from the five
fields and commit.  SQLite assigns the new row the id `maxId + 1` over the
rows currently present (no `AUTOINCREMENT` keyword, so a deleted maximal id
is handed out again); the commit fails with a uniqueness violation when an
existing row already holds the email, leaving the table unchanged. -/
def add_employee (db : DB) (name position email : String) (salary : Rat)
    (department : String) : Except DbError DB :=
  if db.rows.any (fun e => e.email == email) then
    .error .constraintViolation
  else
    .ok { rows := db.rows ++
            [⟨maxId db.rows + 1, name, position, email, .real salary, department⟩] }

/-- Model of `update_employee` (lines 104-114): fetch by primary key; if absent, close
the session without writing (silent no-op); if present, overwrite the five
business fields and commit — a commit that would duplicate another row's
email fails with a uniqueness violation and the rolled-back table is
unchanged. -/
def update_employee (db : DB) (id : Nat) (name position email : String)
    (salary : Rat) (department : String) : Except DbError DB :=
  match db.rows.find? (fun e => e.id == id) with
  | none => .ok db
  | some _ =>
    if db.rows.any (fun e => e.email == email && e.id != id) then
      .error .constraintViolation
    else
      .ok { rows := db.rows.map (fun e =>
              if e.id == id then
                ⟨e.id, name, position, email, .real salary, department⟩
              else e) }

/-- Model of `delete_employee` (lines 116-122): fetch by primary key; delete the row
if present, otherwise close the session without writing.  Nothing else is
touched — in particular, deleting the maximal id makes that id the next one
SQLite assigns. -/
def delete_employee (db : DB) (id : Nat) : DB :=
  { rows := db.rows.filter (fun e => e.id != id) }

/-! ### Operation traces

To speak about ids "ever issued" we run the store from the empty table
through a sequence of user actions (the only mutating entry points the UI
calls). -/

/-- A user-triggered store operation. -/
inductive Op where
  | create (name position email : String) (salary : Rat) (department : String)
  | update (id : Nat) (name position email : String) (salary : Rat) (department : String)
  | delete (id : Nat)

/-- Apply one operation; a failed commit (constraint violation) leaves the
table as it was. -/
def applyOp (db : DB) : Op → DB
  | .create n p e s d =>
    match add_employee db n p e s d with
    | .ok db' => db'
    | .error _ => db
  | .update i n p e s d =>
    match update_employee db i n p e s d with
    | .ok db' => db'
    | .error _ => db
  | .delete i => delete_employee db i

/-- Run a sequence of operations. -/
def runOps (db : DB) : List Op → DB
  | [] => db
  | op :: ops => runOps (applyOp db op) ops

/-- The ids a single operation causes the store to hand out: a successful
create receives `maxId + 1` over the rows present at that moment. -/
def opIssued (db : DB) : Op → List Nat
  | .create _ _ e _ _ =>
    if db.rows.any (fun r => r.email == e) then [] else [maxId db.rows + 1]
  | .update _ _ _ _ _ _ => []
  | .delete _ => []

/-- The ids handed out by successful creates along a trace, in order. -/
def issuedIds (db : DB) : List Op → List Nat
  | [] => []
  | op :: ops => opIssued db op ++ issuedIds (applyOp db op) ops

/-! ### The CSV bulk loader

`load_csv_to_db` (lines 32-51).  A parsed CSV is a header row plus rows of
string cells (`pd.read_csv`).  The five required columns must be present;
then the table is dropped and recreated, and `df.to_sql(..., if_exists=
'append')` inserts every CSV column of every row.  The insert runs in one
transaction, so it fails as a whole — leaving the recreated, empty table —
when a column does not exist in the table, when a cell is missing (pandas
NaN into a `NOT NULL` column), when two rows share an email
(`unique=True`), or when an `id` column carries non-integer or duplicate
keys.  A `salary` cell is never validated: SQLite's flexible typing stores
a numeric literal as a real (the column's `REAL` affinity) and any other
text as text, without error. -/

/-- A parsed CSV file: header row and data rows of string cells. -/
structure Csv where
  header : List String
  rows : List (List String)
deriving DecidableEq, Repr

/-- The columns `load_csv_to_db` requires (line 37). -/
def requiredColumns : List String :=
  ["name", "position", "email", "salary", "department"]

/-- All columns of the `employees` table; a CSV column outside this list has
nowhere to go and makes the bulk insert fail. -/
def tableColumns : List String :=
  "id" :: requiredColumns

/-- Position of a column in the header. -/
def colIndex (hdr : List String) (c : String) : Option Nat :=
  match hdr with
  | [] => none
  | h :: t => if h = c then some 0 else (colIndex t c).map (· + 1)

/-- The cell of row `r` under column `c`. -/
def cellAt (hdr : List String) (r : List String) (c : String) : Option String :=
  (colIndex hdr c).bind (fun i => r.get? i)

/-- Numeric value of a nonempty digit string. -/
def digitsVal? (cs : List Char) : Option Nat :=
  if cs.isEmpty then none
  else cs.foldl (fun acc c =>
    match acc with
    | some a => if c.isDigit then some (a * 10 + (c.toNat - 48)) else none
    | none => none) (some 0)

/-- Split a character list at the first dot. -/
def splitDot : List Char → List Char × Option (List Char)
  | [] => ([], none)
  | c :: cs =>
    if c = '.' then ([], some cs)
    else
      let (w, f) := splitDot cs
      (c :: w, f)

/-- Parse an unsigned decimal numeral, with an optional fractional part. -/
def parseUnsigned? (cs : List Char) : Option Rat :=
  match splitDot cs with
  | (w, none) => (digitsVal? w).map (fun n => (mkRat n 1))
  | (w, some f) =>
    if w.isEmpty && f.isEmpty then none
    else
      match (if w.isEmpty then some 0 else digitsVal? w),
            (if f.isEmpty then some 0 else digitsVal? f) with
      | some wn, some fn => some (mkRat (wn * 10 ^ f.length + fn) (10 ^ f.length))
      | _, _ => none

/-- Parse a (possibly signed) decimal numeral: the literals that SQLite's
`REAL` affinity converts to a real when stored in the `salary` column. -/
def parseRat? (s : String) : Option Rat :=
  match s.toList with
  | [] => none
  | '-' :: cs => (parseUnsigned? cs).map (fun q => -q)
  | '+' :: cs => parseUnsigned? cs
  | cs => parseUnsigned? cs

/-- SQLite `REAL`-affinity conversion of a stored text: a well-formed
numeric literal becomes a real, any other text is stored unchanged.  No
value is rejected. -/
def affinity (s : String) : SqlValue :=
  match parseRat? s with
  | some q => .real q
  | none => .text s

/-- Turn CSV row `r` into a table row with store-generated id `i`: all five
business cells must be present (`NOT NULL`); the salary cell is stored
through `REAL`-affinity conversion, never validated. -/
def parseRow (hdr : List String) (i : Nat) (r : List String) : Option Employee :=
  (cellAt hdr r "name").bind fun n =>
  (cellAt hdr r "position").bind fun p =>
  (cellAt hdr r "email").bind fun e =>
  (cellAt hdr r "salary").bind fun s =>
  (cellAt hdr r "department").bind fun d =>
  some ⟨i, n, p, e, affinity s, d⟩

/-- Turn the CSV rows into table rows with ids generated sequentially from
`i` (the CSV supplies no id column, so the store regenerates ids). -/
def parseRows (hdr : List String) (i : Nat) : List (List String) → Option (List Employee)
  | [] => some []
  | r :: rs =>
    (parseRow hdr i r).bind fun e =>
    (parseRows hdr (i + 1) rs).bind fun es =>
    some (e :: es)

/-- Turn CSV row `r` into a table row when the CSV supplies the id column
itself: the id cell must be an integer (primary key); the salary cell is
again stored through affinity conversion. -/
def parseRowWithId (hdr : List String) (r : List String) : Option Employee :=
  ((cellAt hdr r "id").bind String.toNat?).bind fun i =>
  (cellAt hdr r "name").bind fun n =>
  (cellAt hdr r "position").bind fun p =>
  (cellAt hdr r "email").bind fun e =>
  (cellAt hdr r "salary").bind fun s =>
  (cellAt hdr r "department").bind fun d =>
  some ⟨i, n, p, e, affinity s, d⟩

/-- Turn the CSV rows into table rows taking ids from the CSV's id column. -/
def parseRowsWithId (hdr : List String) : List (List String) → Option (List Employee)
  | [] => some []
  | r :: rs =>
    (parseRowWithId hdr r).bind fun e =>
    (parseRowsWithId hdr rs).bind fun es =>
    some (e :: es)

/-- Relation stating that `e` is the table row produced from CSV row `r`:
each business field is exactly the cell under the matching column, the
salary after `REAL`-affinity conversion. -/
def matchesRow (hdr : List String) (e : Employee) (r : List String) : Prop :=
  cellAt hdr r "name" = some e.name ∧
  cellAt hdr r "position" = some e.position ∧
  cellAt hdr r "email" = some e.email ∧
  (cellAt hdr r "salary").map affinity = some e.salary ∧
  cellAt hdr r "department" = some e.department

/-- The single-transaction bulk insert of `df.to_sql(..., if_exists=
'append')` into the freshly recreated table: `some` rows on success, `none`
when the insert fails (unknown column, missing cell, or violated `unique` /
primary-key constraint).  Salary content never makes it fail. -/
def csvInsert (csv : Csv) : Option (List Employee) :=
  if csv.header.all (fun c => tableColumns.contains c) then
    if csv.header.contains "id" then
      match parseRowsWithId csv.header csv.rows with
      | some es =>
        if (es.map (fun e => e.id)).Nodup ∧ (es.map (fun e => e.email)).Nodup then
          some es
        else none
      | none => none
    else
      match parseRows csv.header 1 csv.rows with
      | some es => if (es.map (fun e => e.email)).Nodup then some es else none
      | none => none
  else none

/-- How a run of the bulk loader ends, mirroring its four `print` branches:
success (line 45), missing required columns (line 47), an exception during
the load (line 49), or no CSV file (line 51). -/
inductive LoadResult where
  | ok
  | missingColumns
  | importError
  | fileMissing
deriving DecidableEq, Repr

/-- Model of `load_csv_to_db` (lines 32-51): `none` models a missing
`employees.csv`.  With the file present and the five required columns in its
header, the table is dropped and recreated — committed before the insert
runs — and the bulk insert either fills it (ids restarting from the CSV) or
fails inside the `except` branch, leaving the recreated table empty. -/
def load_csv_to_db (db : DB) (file : Option Csv) : DB × LoadResult :=
  match file with
  | none => (db, .fileMissing)
  | some csv =>
    if requiredColumns.all (fun c => csv.header.contains c) then
      match csvInsert csv with
      | some es => ({ rows := es }, .ok)
      | none => (initDB, .importError)
    else (db, .missingColumns)

/-! ### Sample inputs used by the witnesses -/

/-- A well-formed two-row CSV (the spec's end-to-end example). -/
def csvSample : Csv :=
  { header := ["name", "position", "email", "salary", "department"],
    rows := [["Alice", "Engineer", "alice@x.com", "90000", "Eng"],
             ["Bob", "Manager", "bob@x.com", "110000", "Ops"]] }

/-- A CSV whose two rows share an email; every salary parses. -/
def csvDupEmail : Csv :=
  { header := ["name", "position", "email", "salary", "department"],
    rows := [["A", "E", "x@x.com", "1.0", "D"],
             ["B", "F", "x@x.com", "2.0", "D"]] }

/-- A CSV with the five required columns plus an extra `notes` column. -/
def csvExtraCol : Csv :=
  { header := ["name", "position", "email", "salary", "department", "notes"],
    rows := [["A", "E", "a@x.com", "1.0", "D", "z"]] }

/-- A CSV missing the `salary` column. -/
def csvNoSalary : Csv :=
  { header := ["name", "position", "email", "department"],
    rows := [["A", "E", "a@x.com", "D"]] }

/-- A CSV with the five required columns whose only salary cell is not a
number. -/
def csvTextSalary : Csv :=
  { header := ["name", "position", "email", "salary", "department"],
    rows := [["A", "E", "a@x.com", "abc", "D"]] }

/-- A one-row table used by witnesses. -/
def dbSample : DB :=
  { rows := [⟨1, "A", "E", "a@x", .real 5, "D"⟩] }

/-! ### Helper lemmas about the CRUD operations -/

theorem find?_id_eq_none {rows : List Employee} {id : Nat}
    (h : rows.all (fun r => r.id != id) = true) :
    rows.find? (fun e => e.id == id) = none := by
  apply List.find?_eq_none.mpr
  intro x hx
  simpa using List.all_eq_true.mp h x hx

theorem filter_id_eq_self {rows : List Employee} {id : Nat}
    (h : rows.all (fun r => r.id != id) = true) :
    rows.filter (fun e => e.id != id) = rows :=
  List.filter_eq_self.mpr (List.all_eq_true.mp h)

theorem find?_update_map (rows : List Employee) (id : Nat)
    (n p e : String) (s : SqlValue) (d : String)
    (h : rows.any (fun r => r.id == id) = true) :
    (rows.map (fun r =>
        if r.id == id then (⟨r.id, n, p, e, s, d⟩ : Employee) else r)).find?
      (fun r => r.id == id) = some ⟨id, n, p, e, s, d⟩ := by
  induction rows with
  | nil => simp at h
  | cons a l ih =>
    rw [List.map_cons]
    by_cases ha : a.id = id
    · have hhead : (if a.id == id then (⟨a.id, n, p, e, s, d⟩ : Employee) else a) =
          ⟨id, n, p, e, s, d⟩ := by
        simp [ha]
      rw [hhead, List.find?_cons_of_pos _ (by simp)]
    · have hhead : (if a.id == id then (⟨a.id, n, p, e, s, d⟩ : Employee) else a) = a := by
        simp [ha]
      have h' : l.any (fun r => r.id == id) = true := by
        rcases List.any_eq_true.mp h with ⟨x, hx, hpx⟩
        rcases List.mem_cons.mp hx with rfl | hx'
        · exact absurd (by simpa using hpx) ha
        · exact List.any_eq_true.mpr ⟨x, hx', hpx⟩
      rw [hhead, List.find?_cons_of_neg _ (by simpa using ha)]
      exact ih h'

theorem mem_update_map_of_ne {rows : List Employee} {id : Nat}
    {n p e : String} {s : SqlValue} {d : String} {x : Employee}
    (hx : x ∈ rows) (hne : x.id ≠ id) :
    x ∈ rows.map (fun r =>
      if r.id == id then (⟨r.id, n, p, e, s, d⟩ : Employee) else r) := by
  have hfx : (if x.id == id then (⟨x.id, n, p, e, s, d⟩ : Employee) else x) = x := by
    simp [hne]
  exact hfx ▸ List.mem_map_of_mem _ hx

theorem mem_of_mem_update_map {rows : List Employee} {id : Nat}
    {n p e : String} {s : SqlValue} {d : String} {y : Employee}
    (hy : y ∈ rows.map (fun r =>
      if r.id == id then (⟨r.id, n, p, e, s, d⟩ : Employee) else r))
    (hne : y.id ≠ id) : y ∈ rows := by
  obtain ⟨x, hx, hxy⟩ := List.mem_map.mp hy
  subst hxy
  by_cases hxi : x.id = id
  · simp [hxi] at hne
  · simpa [hxi] using hx

theorem update_rows_cases (db : DB) (id : Nat) (n p e : String) (s : Rat)
    (d : String) :
    (applyOp db (.update id n p e s d)).rows = db.rows ∨
    (applyOp db (.update id n p e s d)).rows = db.rows.map (fun r =>
      if r.id == id then (⟨r.id, n, p, e, .real s, d⟩ : Employee) else r) := by
  cases hf : db.rows.find? (fun r => r.id == id) with
  | none =>
    left
    simp [applyOp, update_employee, hf]
  | some e0 =>
    by_cases hany : db.rows.any (fun r => r.email == e && r.id != id) = true
    · left
      simp [applyOp, update_employee, hf, hany]
    · right
      simp [applyOp, update_employee, hf, hany]

/-! ### C2, C3, C4, C10 -/

/-- C2: for an id not present in the table, `update_employee` and
`delete_employee` complete without raising and leave the table unchanged
(the silent no-op contract). -/
theorem absent_id_silent_noop (db : DB) (id : Nat) (n p e : String) (s : Rat)
    (d : String) (h : db.rows.all (fun r => r.id != id) = true) :
    update_employee db id n p e s d = .ok db ∧ delete_employee db id = db := by
  constructor
  · unfold update_employee
    rw [find?_id_eq_none h]
  · unfold delete_employee
    rw [filter_id_eq_self h]

theorem absent_id_silent_noop_witness :
    update_employee initDB 7 "A" "E" "a@x" 5 "D" = .ok initDB ∧
    delete_employee initDB 7 = initDB :=
  absent_id_silent_noop initDB 7 "A" "E" "a@x" 5 "D" (by decide)

/-- C3: creating a record whose email is already held by some record fails
with a constraint violation, and the table is exactly as it was before the
call (no partial insert). -/
theorem create_duplicate_email_fails (db : DB) (n p e : String) (s : Rat)
    (d : String) (h : db.rows.any (fun r => r.email == e) = true) :
    add_employee db n p e s d = .error .constraintViolation ∧
    applyOp db (.create n p e s d) = db := by
  refine ⟨?_, ?_⟩ <;> simp [add_employee, applyOp, h]

theorem create_duplicate_email_fails_witness :
    add_employee { rows := [⟨1, "A", "E", "a@x", .real 5, "D"⟩] }
        "B" "F" "a@x" 6 "G" = .error .constraintViolation ∧
    applyOp { rows := [⟨1, "A", "E", "a@x", .real 5, "D"⟩] }
        (.create "B" "F" "a@x" 6 "G") =
      { rows := [⟨1, "A", "E", "a@x", .real 5, "D"⟩] } :=
  create_duplicate_email_fails
    { rows := [⟨1, "A", "E", "a@x", .real 5, "D"⟩] }
    "B" "F" "a@x" 6 "G" (by decide)

/-- C4: for an id present in the table and a field tuple valid for it (its
email not held by any other record), `update_employee` succeeds and a
subsequent read of that id returns exactly the new fields; and after
`delete_employee` a read of that id finds nothing. -/
theorem update_roundtrip_delete_notfound (db : DB) (id : Nat) (n p e : String)
    (s : Rat) (d : String)
    (hpresent : db.rows.any (fun r => r.id == id) = true)
    (hemail : db.rows.any (fun r => r.email == e && r.id != id) = false) :
    (∃ db', update_employee db id n p e s d = .ok db' ∧
      db'.rows.find? (fun r => r.id == id) = some ⟨id, n, p, e, .real s, d⟩) ∧
    (delete_employee db id).rows.find? (fun r => r.id == id) = none := by
  constructor
  · have hf : (db.rows.find? (fun r => r.id == id)).isSome := by
      rw [List.find?_isSome]
      obtain ⟨x, hx, hpx⟩ := List.any_eq_true.mp hpresent
      exact ⟨x, hx, hpx⟩
    obtain ⟨e0, he0⟩ := Option.isSome_iff_exists.mp hf
    refine ⟨DB.mk (db.rows.map (fun r =>
        if r.id == id then (⟨r.id, n, p, e, .real s, d⟩ : Employee) else r)),
      ?_, ?_⟩
    · simp [update_employee, he0, hemail]
    · exact find?_update_map db.rows id n p e (.real s) d hpresent
  · apply List.find?_eq_none.mpr
    intro x hx
    have hx' : x ∈ db.rows.filter (fun r => r.id != id) := hx
    have := (List.mem_filter.mp hx').2
    simpa using this

theorem update_roundtrip_delete_notfound_witness :
    (∃ db', update_employee { rows := [⟨1, "A", "E", "a@x", .real 5, "D"⟩] }
        1 "B" "F" "b@x" 6 "G" = .ok db' ∧
      db'.rows.find? (fun r => r.id == 1) = some ⟨1, "B", "F", "b@x", .real 6, "G"⟩) ∧
    (delete_employee { rows := [⟨1, "A", "E", "a@x", .real 5, "D"⟩] }
        1).rows.find? (fun r => r.id == 1) = none :=
  update_roundtrip_delete_notfound
    { rows := [⟨1, "A", "E", "a@x", .real 5, "D"⟩] }
    1 "B" "F" "b@x" 6 "G" (by decide) (by decide)

/-- C10: the operation `update_employee` leaves every record with a different id unchanged
(in both directions: no such record is altered, and none appears), and
`delete_employee` keeps every record with a different id and never adds a
record. -/
theorem update_delete_frame (db : DB) (id : Nat) (n p e : String) (s : Rat)
    (d : String) :
    (∀ x ∈ db.rows, x.id ≠ id → x ∈ (applyOp db (.update id n p e s d)).rows) ∧
    (∀ x ∈ (applyOp db (.update id n p e s d)).rows, x.id ≠ id → x ∈ db.rows) ∧
    (∀ x ∈ db.rows, x.id ≠ id → x ∈ (delete_employee db id).rows) ∧
    (∀ x ∈ (delete_employee db id).rows, x ∈ db.rows) := by
  refine ⟨?_, ?_, ?_, ?_⟩
  · intro x hx hne
    rcases update_rows_cases db id n p e s d with hc | hc <;> rw [hc]
    · exact hx
    · exact mem_update_map_of_ne hx hne
  · intro x hx hne
    rcases update_rows_cases db id n p e s d with hc | hc <;> rw [hc] at hx
    · exact hx
    · exact mem_of_mem_update_map hx hne
  · intro x hx hne
    have hpx : (fun r : Employee => r.id != id) x = true := by simpa using hne
    show x ∈ db.rows.filter (fun r => r.id != id)
    exact List.mem_filter_of_mem hx hpx
  · intro x hx
    have hx' : x ∈ db.rows.filter (fun r => r.id != id) := hx
    exact List.mem_of_mem_filter hx'

theorem update_delete_frame_witness :
    (⟨2, "B", "F", "b@x", .real 6, "G"⟩ : Employee) ∈
      (applyOp { rows := [⟨1, "A", "E", "a@x", .real 5, "D"⟩, ⟨2, "B", "F", "b@x", .real 6, "G"⟩] }
        (.update 1 "C" "H" "c@x" 7 "I")).rows ∧
    (⟨2, "B", "F", "b@x", .real 6, "G"⟩ : Employee) ∈
      (delete_employee { rows := [⟨1, "A", "E", "a@x", .real 5, "D"⟩, ⟨2, "B", "F", "b@x", .real 6, "G"⟩] } 1).rows :=
  ⟨(update_delete_frame
      { rows := [⟨1, "A", "E", "a@x", .real 5, "D"⟩, ⟨2, "B", "F", "b@x", .real 6, "G"⟩] }
      1 "C" "H" "c@x" 7 "I").1 _ (by decide) (by decide),
   (update_delete_frame
      { rows := [⟨1, "A", "E", "a@x", .real 5, "D"⟩, ⟨2, "B", "F", "b@x", .real 6, "G"⟩] }
      1 "C" "H" "c@x" 7 "I").2.2.1 _ (by decide) (by decide)⟩

/-! ### C6: missing file / missing columns leave the table untouched -/

/-- C6: running the bulk loader with no CSV file, or with a CSV missing any
of the five required columns, returns without raising and performs no table
mutation. -/
theorem loader_no_mutation_on_bad_input (db : DB) (csv : Csv) :
    load_csv_to_db db none = (db, .fileMissing) ∧
    (requiredColumns.all (fun c => csv.header.contains c) = false →
      load_csv_to_db db (some csv) = (db, .missingColumns)) := by
  constructor
  · rfl
  · intro h
    simp only [load_csv_to_db, h]
    simp

theorem loader_no_mutation_on_bad_input_witness :
    load_csv_to_db { rows := [⟨1, "A", "E", "a@x", .real 5, "D"⟩] } none =
      ({ rows := [⟨1, "A", "E", "a@x", .real 5, "D"⟩] }, .fileMissing) ∧
    load_csv_to_db { rows := [⟨1, "A", "E", "a@x", .real 5, "D"⟩] }
        (some csvNoSalary) =
      ({ rows := [⟨1, "A", "E", "a@x", .real 5, "D"⟩] }, .missingColumns) :=
  ⟨(loader_no_mutation_on_bad_input
      { rows := [⟨1, "A", "E", "a@x", .real 5, "D"⟩] } csvNoSalary).1,
   (loader_no_mutation_on_bad_input
      { rows := [⟨1, "A", "E", "a@x", .real 5, "D"⟩] } csvNoSalary).2
      (by decide)⟩

/-! ### Id assignment: max(rowid) + 1 -/

theorem foldl_max_init_le (l : List Nat) (a : Nat) : a ≤ l.foldl max a := by
  induction l generalizing a with
  | nil => exact le_refl a
  | cons b t ih => exact le_trans (Nat.le_max_left a b) (ih (max a b))

theorem mem_le_foldl_max (l : List Nat) (a : Nat) : ∀ x ∈ l, x ≤ l.foldl max a := by
  induction l generalizing a with
  | nil => intro x hx; simp at hx
  | cons b t ih =>
    intro x hx
    rcases List.mem_cons.mp hx with rfl | hx2
    · exact le_trans (Nat.le_max_right a x) (foldl_max_init_le t (max a x))
    · exact ih (max a b) x hx2

theorem le_maxId (rows : List Employee) : ∀ r ∈ rows, r.id ≤ maxId rows := by
  intro r hr
  unfold maxId
  exact mem_le_foldl_max _ 0 r.id (List.mem_map_of_mem _ hr)

/-! ### C1 and C7 -/

/-- C1 (amended): creating a record with an email not in the table succeeds;
`load_employees` then returns all previous records unchanged followed by
exactly one new record whose business fields equal the input and whose id
— `maxId + 1` — is held by no record currently in the table.  The id may,
however, coincide with an id previously issued to a since-deleted record
(see `create_reissues_deleted_id`). -/
theorem create_appends_fresh_row (db : DB) (n p e : String) (s : Rat)
    (d : String) (h : db.rows.any (fun r => r.email == e) = false) :
    (∃ db', add_employee db n p e s d = .ok db' ∧
      load_employees db' = load_employees db ++
        [⟨maxId db.rows + 1, n, p, e, .real s, d⟩]) ∧
    ∀ r ∈ db.rows, r.id ≠ maxId db.rows + 1 := by
  constructor
  · refine ⟨DB.mk (db.rows ++ [⟨maxId db.rows + 1, n, p, e, .real s, d⟩]),
      ?_, ?_⟩
    · simp [add_employee, h]
    · rfl
  · intro r hr
    have := le_maxId db.rows r hr
    omega

theorem create_appends_fresh_row_witness :
    (∃ db', add_employee dbSample "Alice" "Engineer" "alice@x.com" 90000 "Eng" =
        .ok db' ∧
      load_employees db' = load_employees dbSample ++
        [⟨maxId dbSample.rows + 1, "Alice", "Engineer", "alice@x.com",
          .real 90000, "Eng"⟩]) ∧
    ∀ r ∈ dbSample.rows, r.id ≠ maxId dbSample.rows + 1 :=
  create_appends_fresh_row dbSample "Alice" "Engineer" "alice@x.com" 90000 "Eng"
    (by decide)

/-- C1 counterexample: after a create (assigned id 1) and a delete of id 1,
a further create with a fresh email succeeds and is assigned id 1 again —
an id that was previously issued — refuting the claim's conjunct that the
new id was never issued before.  SQLite assigns `max(rowid) + 1` because
the table's primary key carries no `AUTOINCREMENT` keyword. -/
theorem create_reissues_deleted_id :
    (runOps initDB [Op.create "A" "E" "a@x" 5 "D", Op.delete 1]).rows.any
      (fun r => r.email == "b@x") = false ∧
    (runOps initDB [Op.create "A" "E" "a@x" 5 "D", Op.delete 1,
        Op.create "B" "F" "b@x" 6 "G"]).rows =
      [⟨1, "B", "F", "b@x", .real 6, "G"⟩] ∧
    (1 : Nat) ∈ issuedIds initDB [Op.create "A" "E" "a@x" 5 "D", Op.delete 1] := by
  decide

/-- C7 is false of the program: on the trace create, create, delete id 2,
create, the store hands out the ids 1, 2, 2 — the id of the deleted second
record is issued again, because the table's integer primary key (no
`AUTOINCREMENT` keyword) makes SQLite assign `max(rowid) + 1` — so the
issued ids are neither strictly increasing nor free of reuse, although the
spec declares ids monotone and never reused after deletion. -/
theorem id_reused_after_delete :
    issuedIds initDB
      [Op.create "A" "E" "a@x" 5 "D", Op.create "B" "F" "b@x" 6 "G",
       Op.delete 2, Op.create "C" "H" "c@x" 7 "I"] = [1, 2, 2] ∧
    ¬ (issuedIds initDB
      [Op.create "A" "E" "a@x" 5 "D", Op.create "B" "F" "b@x" 6 "G",
       Op.delete 2, Op.create "C" "H" "c@x" 7 "I"]).Pairwise (· < ·) := by
  decide

/-! ### CSV parsing lemmas -/

theorem colIndex_lt_length {hdr : List String} {c : String} {i : Nat}
    (h : colIndex hdr c = some i) : i < hdr.length := by
  induction hdr generalizing i with
  | nil => simp [colIndex] at h
  | cons a t ih =>
    by_cases hac : a = c
    · simp [colIndex, hac] at h
      simp only [List.length_cons]
      omega
    · simp [colIndex, hac] at h
      obtain ⟨j, hj, hji⟩ := h
      have := ih hj
      simp only [List.length_cons]
      omega

theorem colIndex_isSome_of_mem {hdr : List String} {c : String} (h : c ∈ hdr) :
    (colIndex hdr c).isSome := by
  induction hdr with
  | nil => simp at h
  | cons a t ih =>
    by_cases hac : a = c
    · simp [colIndex, hac]
    · rcases List.mem_cons.mp h with h1 | h2
      · exact absurd h1.symm hac
      · simp [colIndex, hac]
        simpa using ih h2

theorem cellAt_isSome_of_mem {hdr r : List String} {c : String}
    (hc : c ∈ hdr) (hlen : r.length = hdr.length) : (cellAt hdr r c).isSome := by
  obtain ⟨i, hi⟩ := Option.isSome_iff_exists.mp (colIndex_isSome_of_mem hc)
  have hlt : i < r.length := hlen ▸ colIndex_lt_length hi
  unfold cellAt
  rw [hi, Option.some_bind, List.get?_eq_get hlt]
  rfl

theorem parseRow_sound {hdr : List String} {i : Nat} {r : List String}
    {e : Employee} (h : parseRow hdr i r = some e) : matchesRow hdr e r := by
  unfold parseRow at h
  simp only [Option.bind_eq_some, Option.some.injEq] at h
  obtain ⟨n, hn, p, hp, e2, he2, sv, hsv, d, hd, heq⟩ := h
  subst heq
  refine ⟨hn, hp, he2, ?_, hd⟩
  rw [hsv]
  rfl

theorem parseRows_sound {hdr : List String} :
    ∀ {rows : List (List String)} {i : Nat} {es : List Employee},
      parseRows hdr i rows = some es → List.Forall₂ (matchesRow hdr) es rows := by
  intro rows
  induction rows with
  | nil =>
    intro i es h
    simp [parseRows] at h
    subst h
    exact List.Forall₂.nil
  | cons r rs ih =>
    intro i es h
    rw [parseRows] at h
    simp only [Option.bind_eq_some, Option.some.injEq] at h
    obtain ⟨e, he, es2, hes2, heq⟩ := h
    subst heq
    exact List.Forall₂.cons (parseRow_sound he) (ih hes2)

theorem parseRow_isSome {hdr : List String} {r : List String} (i : Nat)
    (h1 : (cellAt hdr r "name").isSome) (h2 : (cellAt hdr r "position").isSome)
    (h3 : (cellAt hdr r "email").isSome)
    (h4 : (cellAt hdr r "salary").isSome)
    (h5 : (cellAt hdr r "department").isSome) : (parseRow hdr i r).isSome := by
  obtain ⟨vn, hvn⟩ := Option.isSome_iff_exists.mp h1
  obtain ⟨vp, hvp⟩ := Option.isSome_iff_exists.mp h2
  obtain ⟨ve, hve⟩ := Option.isSome_iff_exists.mp h3
  obtain ⟨vs, hvs⟩ := Option.isSome_iff_exists.mp h4
  obtain ⟨vd, hvd⟩ := Option.isSome_iff_exists.mp h5
  simp [parseRow, hvn, hvp, hve, hvs, hvd]

theorem parseRows_isSome {hdr : List String} :
    ∀ {rows : List (List String)},
      (∀ r ∈ rows,
        (cellAt hdr r "name").isSome ∧ (cellAt hdr r "position").isSome ∧
        (cellAt hdr r "email").isSome ∧ (cellAt hdr r "salary").isSome ∧
        (cellAt hdr r "department").isSome) →
      ∀ i, (parseRows hdr i rows).isSome := by
  intro rows
  induction rows with
  | nil => intro _ i; simp [parseRows]
  | cons r rs ih =>
    intro hcells i
    obtain ⟨h1, h2, h3, h4, h5⟩ := hcells r (List.mem_cons_self r rs)
    obtain ⟨e, he⟩ := Option.isSome_iff_exists.mp (parseRow_isSome i h1 h2 h3 h4 h5)
    obtain ⟨es, hes⟩ := Option.isSome_iff_exists.mp
      (ih (fun r2 hr2 => hcells r2 (List.mem_cons_of_mem _ hr2)) (i + 1))
    simp [parseRows, he, hes]

theorem emails_of_forall₂ {hdr : List String} {es : List Employee}
    {rows : List (List String)} (h : List.Forall₂ (matchesRow hdr) es rows) :
    es.map (fun e => e.email) =
      rows.map (fun r => (cellAt hdr r "email").getD "") := by
  induction h with
  | nil => rfl
  | cons h1 h2 ih =>
    rw [List.map_cons, List.map_cons, ih, h1.2.2.1]
    rfl

/-! ### Bulk-insert lemmas -/

theorem csvInsert_eq_some (csv : Csv)
    (hreq : requiredColumns.all (fun c => csv.header.contains c) = true)
    (hexact : csv.header.all (fun c => requiredColumns.contains c) = true)
    (hlen : ∀ r ∈ csv.rows, r.length = csv.header.length)
    (hemail : (csv.rows.map (fun r => (cellAt csv.header r "email").getD "")).Nodup) :
    ∃ es, parseRows csv.header 1 csv.rows = some es ∧ csvInsert csv = some es := by
  have hsub : ∀ c ∈ csv.header, c ∈ requiredColumns := by
    intro c hc
    exact List.mem_of_elem_eq_true (List.all_eq_true.mp hexact c hc)
  have hmemhdr : ∀ c ∈ requiredColumns, c ∈ csv.header := by
    intro c hc
    exact List.mem_of_elem_eq_true (List.all_eq_true.mp hreq c hc)
  have hid : csv.header.contains "id" = false := by
    cases hco : csv.header.contains "id" with
    | false => rfl
    | true =>
      exact absurd (hsub "id" (List.mem_of_elem_eq_true hco)) (by decide)
  have htab : csv.header.all (fun c => tableColumns.contains c) = true := by
    rw [List.all_eq_true]
    intro c hc
    exact List.elem_eq_true_of_mem (List.mem_cons_of_mem _ (hsub c hc))
  have hcells : ∀ r ∈ csv.rows,
      (cellAt csv.header r "name").isSome ∧
      (cellAt csv.header r "position").isSome ∧
      (cellAt csv.header r "email").isSome ∧
      (cellAt csv.header r "salary").isSome ∧
      (cellAt csv.header r "department").isSome := by
    intro r hr
    refine ⟨?_, ?_, ?_, ?_, ?_⟩ <;>
      exact cellAt_isSome_of_mem (hmemhdr _ (by decide)) (hlen r hr)
  obtain ⟨es, hes⟩ := Option.isSome_iff_exists.mp (parseRows_isSome hcells 1)
  have hnodup : (es.map (fun e => e.email)).Nodup := by
    rw [emails_of_forall₂ (parseRows_sound hes)]
    exact hemail
  refine ⟨es, hes, ?_⟩
  unfold csvInsert
  rw [htab, hid, hes]
  simp [hnodup]

theorem load_csv_ok (db : DB) (csv : Csv)
    (hreq : requiredColumns.all (fun c => csv.header.contains c) = true)
    (hexact : csv.header.all (fun c => requiredColumns.contains c) = true)
    (hlen : ∀ r ∈ csv.rows, r.length = csv.header.length)
    (hemail : (csv.rows.map (fun r => (cellAt csv.header r "email").getD "")).Nodup) :
    ∃ es, parseRows csv.header 1 csv.rows = some es ∧
      load_csv_to_db db (some csv) = ({ rows := es }, .ok) := by
  obtain ⟨es, hes, hins⟩ := csvInsert_eq_some csv hreq hexact hlen hemail
  refine ⟨es, hes, ?_⟩
  simp only [load_csv_to_db]
  rw [hreq, hins]
  simp

/-! ### C5: what the bulk load replaces, and when twice equals once -/

/-- C5 counterexample: a CSV containing the five required columns, with one
complete row whose salary is numeric, on which the claim fails — the extra
`notes` column makes each of the two loader runs end with an empty table
instead of one row per CSV row. -/
theorem double_load_loses_wellformed_rows :
    requiredColumns.all (fun c => csvExtraCol.header.contains c) = true ∧
    csvExtraCol.rows.length = 1 ∧
    (load_csv_to_db initDB (some csvExtraCol)).1.rows.length = 0 ∧
    (load_csv_to_db (load_csv_to_db initDB (some csvExtraCol)).1
      (some csvExtraCol)).1.rows.length = 0 := by
  decide

/-- C5 amended: for a CSV whose header consists of exactly the five
required columns, whose rows are complete, and whose emails are pairwise
distinct, running the bulk loader twice in sequence succeeds both times,
leaves exactly one table row per CSV row whose business fields equal that
CSV row, and the second run reproduces the first run's table exactly (a
destructive replace whose outcome depends only on the CSV). -/
theorem bulk_load_exact_columns_idempotent (db : DB) (csv : Csv)
    (hreq : requiredColumns.all (fun c => csv.header.contains c) = true)
    (hexact : csv.header.all (fun c => requiredColumns.contains c) = true)
    (hlen : ∀ r ∈ csv.rows, r.length = csv.header.length)
    (hemail : (csv.rows.map (fun r => (cellAt csv.header r "email").getD "")).Nodup) :
    (load_csv_to_db db (some csv)).2 = .ok ∧
    (load_csv_to_db db (some csv)).1.rows.length = csv.rows.length ∧
    List.Forall₂ (matchesRow csv.header) (load_csv_to_db db (some csv)).1.rows csv.rows ∧
    load_csv_to_db (load_csv_to_db db (some csv)).1 (some csv) =
      load_csv_to_db db (some csv) := by
  obtain ⟨es, hes, hload⟩ := load_csv_ok db csv hreq hexact hlen hemail
  obtain ⟨es2, hes2, hload2⟩ :=
    load_csv_ok (load_csv_to_db db (some csv)).1 csv hreq hexact hlen hemail
  have hsame : es2 = es := by
    rw [hes] at hes2
    exact (Option.some.inj hes2).symm
  refine ⟨?_, ?_, ?_, ?_⟩
  · rw [hload]
  · rw [hload]
    exact (parseRows_sound hes).length_eq
  · rw [hload]
    exact parseRows_sound hes
  · rw [hload2, hsame, hload]

theorem bulk_load_exact_columns_idempotent_witness :
    (load_csv_to_db initDB (some csvSample)).2 = .ok ∧
    (load_csv_to_db initDB (some csvSample)).1.rows.length = csvSample.rows.length ∧
    List.Forall₂ (matchesRow csvSample.header)
      (load_csv_to_db initDB (some csvSample)).1.rows csvSample.rows ∧
    load_csv_to_db (load_csv_to_db initDB (some csvSample)).1 (some csvSample) =
      load_csv_to_db initDB (some csvSample) :=
  bulk_load_exact_columns_idempotent initDB csvSample (by decide) (by decide)
    (by decide) (by decide)

/-- Supporting fact for the amended C5 and C8: repeated emails — with every
salary numeric and no extra columns — violate the unique constraint and
abort the insert, so the distinct-emails hypothesis cannot be dropped. -/
theorem duplicate_email_blocks_insert :
    requiredColumns.all (fun c => csvDupEmail.header.contains c) = true ∧
    csvDupEmail.rows.all
      (fun r => ((cellAt csvDupEmail.header r "salary").bind parseRat?).isSome) = true ∧
    (load_csv_to_db initDB (some csvDupEmail)).2 = .importError := by
  decide

/-! ### C8: salary content does not gate the import -/

/-- C8 counterexample: a CSV with the five required columns whose only
salary cell, `abc`, does not parse as a number — yet the import succeeds
and serves the row, storing the salary as text under SQLite's flexible
typing, refuting the claim that a non-parsing salary makes the whole bulk
load fail. -/
theorem nonnumeric_salary_import_succeeds :
    requiredColumns.all (fun c => csvTextSalary.header.contains c) = true ∧
    csvTextSalary.rows.all
      (fun r => ((cellAt csvTextSalary.header r "salary").bind parseRat?).isNone) = true ∧
    load_csv_to_db initDB (some csvTextSalary) =
      ({ rows := [⟨1, "A", "E", "a@x.com", .text "abc", "D"⟩] }, .ok) := by
  decide

/-- C8 amended: the loader performs no salary validation — for a CSV with
exactly the five required columns, complete rows, and pairwise-distinct
emails, the import succeeds whether or not the salary cells parse as
floats, and each served row stores its salary cell through `REAL`-affinity
conversion (numerals become reals, other text stays text). -/
theorem import_ignores_salary_content (db : DB) (csv : Csv)
    (hreq : requiredColumns.all (fun c => csv.header.contains c) = true)
    (hexact : csv.header.all (fun c => requiredColumns.contains c) = true)
    (hlen : ∀ r ∈ csv.rows, r.length = csv.header.length)
    (hemail : (csv.rows.map (fun r => (cellAt csv.header r "email").getD "")).Nodup) :
    (load_csv_to_db db (some csv)).2 = .ok ∧
    List.Forall₂ (matchesRow csv.header) (load_csv_to_db db (some csv)).1.rows csv.rows := by
  obtain ⟨es, hes, hload⟩ := load_csv_ok db csv hreq hexact hlen hemail
  rw [hload]
  exact ⟨rfl, parseRows_sound hes⟩

theorem import_ignores_salary_content_witness :
    (load_csv_to_db initDB (some csvTextSalary)).2 = .ok ∧
    List.Forall₂ (matchesRow csvTextSalary.header)
      (load_csv_to_db initDB (some csvTextSalary)).1.rows csvTextSalary.rows :=
  import_ignores_salary_content initDB csvTextSalary (by decide) (by decide)
    (by decide) (by decide)

/-! ### C9: extra columns -/

/-- C9 counterexample: a CSV with the five required columns plus a `notes`
column is not imported with the extra column ignored — the bulk insert has
no `notes` column to write, the import fails, and the freshly recreated
table stays empty instead of holding one record per CSV row. -/
theorem extra_column_fails_import :
    requiredColumns.all (fun c => csvExtraCol.header.contains c) = true ∧
    load_csv_to_db initDB (some csvExtraCol) = (initDB, .importError) ∧
    (load_csv_to_db initDB (some csvExtraCol)).1.rows.length ≠ csvExtraCol.rows.length := by
  decide

/-- C9 amended: a CSV containing the five required columns plus any column
outside the table's schema makes the bulk insert fail after the
drop-and-recreate, so the run ends with an empty table and an import
error — the additional columns are not ignored. -/
theorem extra_column_aborts_load (db : DB) (csv : Csv)
    (hreq : requiredColumns.all (fun c => csv.header.contains c) = true)
    (hbadcol : ∃ c ∈ csv.header, c ∉ tableColumns) :
    load_csv_to_db db (some csv) = (initDB, .importError) := by
  obtain ⟨c, hc, hcnot⟩ := hbadcol
  have hfail : csv.header.all (fun c => tableColumns.contains c) = false := by
    cases hall : csv.header.all (fun c => tableColumns.contains c) with
    | false => rfl
    | true =>
      exact absurd (List.mem_of_elem_eq_true (List.all_eq_true.mp hall c hc)) hcnot
  have hins : csvInsert csv = none := by
    unfold csvInsert
    rw [hfail]
    simp
  simp only [load_csv_to_db]
  rw [hreq, hins]
  simp

theorem extra_column_aborts_load_witness :
    load_csv_to_db initDB (some csvExtraCol) = (initDB, .importError) :=
  extra_column_aborts_load initDB csvExtraCol (by decide)
    ⟨"notes", by decide, by decide⟩

end EmployeeMS
